import Mathlib

/-!
# K8s-Storage: the storage writer and the HTTP handlers

A shallow embedding of `go-app/storage/writer.go` and `go-app/main.go`.

The two source files are thin wrappers over the Go standard library
(`os.WriteFile`, `net/http`, `fmt`, `log`), so the development has two layers:

* a model of the platform the code runs on: Go strings as byte sequences, a
  POSIX-style file system with path resolution and owner permission bits, a
  response recorder, `http.Error`, `url.Values.Get`, and the process log;
* the repository code itself (`Writer`, `NewWriter`, `Writer.Write`,
  `dataPath`, `writeHandler`, `healthHandler`, the route table of `main`),
  translated line by line on top of that model.

Platform assumptions, stated once:

* a file system is a map from resolved locations to nodes; a node is a
  regular file or a directory (no devices, FIFOs or sockets), there are no
  symbolic or hard links, relative names are resolved from the root, and the
  process is the (unprivileged) owner of every node, so access is decided by
  the owner permission bits;
* file names are byte strings under the limits of Linux: no NUL byte
  (`EINVAL` from the Go system-call layer), fewer than `PATH_MAX` = 4096
  bytes in all and at most `NAME_MAX` = 255 bytes per component
  (`ENAMETOOLONG`);
* once a file is open for writing the device accepts the data (no `ENOSPC`,
  `EIO`, no failing `close`); file creation uses the requested mode as is;
* one request is handled at a time (handlers are state transformers); the
  server sends the status the handler wrote and, except for a `HEAD` request,
  the body it wrote;
* log lines are recorded without the time stamp that `log` puts in front.
-/

namespace K8sStorage

/-! ## Go strings -/

/-- A Go `string` (and a `[]byte`): a finite sequence of bytes. The conversions
`[]byte(s)` and `string(b)` copy the bytes and are the identity here. -/
abbrev GoString := List UInt8

/-- The bytes of a string literal of the Go source (UTF-8). -/
def lit (s : String) : GoString := s.toUTF8.data.toList

/-! ## File system -/

/-- A resolved location: the entry names from the root downwards. -/
abbrev Path := List GoString

/-- The error numbers the model can produce. -/
inductive Errno
  | ENOENT
  | ENOTDIR
  | EISDIR
  | EACCES
  | EBADF
  | EINVAL
  | ENAMETOOLONG
  deriving DecidableEq, Repr

/-- The text of `syscall.Errno.Error()`. -/
def Errno.Error : Errno → GoString
  | .ENOENT => lit "no such file or directory"
  | .ENOTDIR => lit "not a directory"
  | .EISDIR => lit "is a directory"
  | .EACCES => lit "permission denied"
  | .EBADF => lit "bad file descriptor"
  | .EINVAL => lit "invalid argument"
  | .ENAMETOOLONG => lit "file name too long"

/-- The `*fs.PathError` returned by the `os` package. -/
structure PathError where
  Op : GoString
  Path : GoString
  Err : Errno
  deriving DecidableEq, Repr

/-- The text of `(*PathError).Error()`: `Op + " " + Path + ": " + Err.Error()`. -/
def PathError.Error (e : PathError) : GoString :=
  e.Op ++ lit " " ++ e.Path ++ lit ": " ++ e.Err.Error

/-- A node of the file system: a regular file with its permission bits and
bytes, or a directory with its permission bits. -/
inductive Node
  | file (perm : Nat) (data : List UInt8)
  | dir (perm : Nat)
  deriving DecidableEq, Repr

/-- A file system state: what is stored at each location. -/
abbrev FS := Path → Option Node

/-- The state with location `p` holding node `n`. -/
def FS.set (fs : FS) (p : Path) (n : Node) : FS :=
  fun q => if q = p then some n else fs q

/-- Owner read bit (`0400`). -/
def canRead (perm : Nat) : Bool := perm / 256 % 2 == 1

/-- Owner write bit (`0200`). -/
def canWrite (perm : Nat) : Bool := perm / 128 % 2 == 1

/-- Owner search bit (`0100`). -/
def canSearch (perm : Nat) : Bool := perm / 64 % 2 == 1

/-- Names that denote a directory reached, not an entry of their own:
the empty component (as in `a//b` or `a/`), `.` and `..`. -/
def isDots (c : GoString) : Bool :=
  c == [] || c == lit "." || c == lit ".."

/-- One step of path resolution: the location named by component `c` inside
the directory at `cur`. -/
def step (cur : Path) (c : GoString) : Path :=
  if c == [] || c == lit "." then cur
  else if c == lit ".." then cur.dropLast
  else cur ++ [c]

/-- The longest component of a file name, in bytes (`NAME_MAX` of Linux). -/
def NAME_MAX : Nat := 255

/-- The size of the buffer a file name with its terminating NUL must fit in
(`PATH_MAX` of Linux): a name has fewer than `PATH_MAX` bytes. -/
def PATH_MAX : Nat := 4096

/-- What is checked on a file name before resolution starts: a NUL byte is
refused by the Go system-call layer (`EINVAL`), the empty name does not exist
(`ENOENT`), a name of `PATH_MAX` bytes or more is too long (`ENAMETOOLONG`). -/
def checkName (name : GoString) : Option Errno :=
  if (0 : UInt8) ∈ name then some .EINVAL
  else if name = [] then some .ENOENT
  else if PATH_MAX ≤ name.length then some .ENAMETOOLONG
  else none

/-- A lookup inside `d` needs `d` to be a directory the process may search. -/
def searchDir (fs : FS) (d : Path) : Option Errno :=
  match fs d with
  | none => some .ENOENT
  | some (.file _ _) => some .ENOTDIR
  | some (.dir perm) => if canSearch perm then none else some .EACCES

/-- The lookup of component `c` inside `d`: `d` must be a directory the process
may search, and `c` at most `NAME_MAX` bytes long. -/
def lookupIn (fs : FS) (d : Path) (c : GoString) : Option Errno :=
  match searchDir fs d with
  | some e => some e
  | none => if NAME_MAX < c.length then some .ENAMETOOLONG else none

/-- Resolve the directory components `cs` starting in `cur`. -/
def walkDirs (fs : FS) : Path → List GoString → Except Errno Path
  | cur, [] => .ok cur
  | cur, c :: cs =>
    match lookupIn fs cur c with
    | some e => .error e
    | none => walkDirs fs (step cur c) cs

/-- The components of `name` before the last one. -/
def dirPart (name : GoString) : List GoString := (name.splitOn 47).dropLast

/-- The last component of `name`. -/
def basePart (name : GoString) : GoString := (name.splitOn 47).getLastD []

/-- The location of the directory in which the last component of `name` is
looked up: the parent directory of `name`. -/
def parentLoc (name : GoString) : Path := (dirPart name).foldl step []

/-- The location `name` denotes. -/
def loc (name : GoString) : Path := step (parentLoc name) (basePart name)

/-- Path resolution up to the last component: the name is checked, then every
directory on the way, the parent directory included, must exist and be
searchable and every component must be short enough. The result is the
parent directory and the last component. -/
def namei (fs : FS) (name : GoString) : Except Errno (Path × GoString) :=
  match checkName name with
  | some e => .error e
  | none =>
    match walkDirs fs [] (dirPart name) with
    | .error e => .error e
    | .ok dir =>
      match lookupIn fs dir (basePart name) with
      | some e => .error e
      | none => .ok (dir, basePart name)

/-- The bytes stored in the regular file that `name` resolves to, if it
resolves to one: what the file contains. Whether the process may read them is
a matter of the read bit, see `os.ReadFile`. -/
def contents (fs : FS) (name : GoString) : Option (List UInt8) :=
  match namei fs name with
  | .error _ => none
  | .ok (dir, base) =>
    match fs (step dir base) with
    | some (.file _ data) => some data
    | _ => none

/-- An open file: the name it was opened under and the location it refers to
(the offset is 0, the file is only ever written once after opening). -/
structure File where
  name : GoString
  loc : Path
  deriving DecidableEq, Repr

namespace os

/-- Model of `os.OpenFile(name, O_WRONLY|O_CREATE|O_TRUNC, perm)`, the only
flag combination the repository uses (through `os.WriteFile`). A name with a
NUL byte fails with `EINVAL`, a name or component that is too long with
`ENAMETOOLONG` (both through `namei`); nothing is created then. -/
def OpenFile (fs : FS) (name : GoString) (perm : Nat) : Except PathError (File × FS) :=
  let fail (e : Errno) : Except PathError (File × FS) := .error ⟨lit "open", name, e⟩
  match namei fs name with
  | .error e => fail e
  | .ok (dir, base) =>
    if isDots base then fail .EISDIR
    else
      let target := step dir base
      match fs target with
      | some (.dir _) => fail .EISDIR
      | some (.file fperm _) =>
        if canWrite fperm then .ok (⟨name, target⟩, fs.set target (.file fperm []))
        else fail .EACCES
      | none =>
        match fs dir with
        | some (.dir dperm) =>
          if canWrite dperm then .ok (⟨name, target⟩, fs.set target (.file perm []))
          else fail .EACCES
        | _ => fail .ENOENT

end os

/-- Model of `(*os.File).Write` at offset 0: the bytes replace the start of
the file. -/
def File.Write (f : File) (b : List UInt8) (fs : FS) : Option PathError × FS :=
  match fs f.loc with
  | some (.file perm data) => (none, fs.set f.loc (.file perm (b ++ data.drop b.length)))
  | _ => (some ⟨lit "write", f.name, .EBADF⟩, fs)

namespace os

/-- Model of `os.WriteFile`: open with `O_WRONLY|O_CREATE|O_TRUNC`, write the
data, close; the first error is returned. -/
def WriteFile (name : GoString) (data : List UInt8) (perm : Nat) (fs : FS) :
    Option PathError × FS :=
  match OpenFile fs name perm with
  | .error e => (some e, fs)
  | .ok (f, fs1) => f.Write data fs1

/-- Model of `os.ReadFile`, the read-back of the tests: the name must resolve
to a regular file the process may read. -/
def ReadFile (fs : FS) (name : GoString) : Except PathError (List UInt8) :=
  match namei fs name with
  | .error e => .error ⟨lit "open", name, e⟩
  | .ok (dir, base) =>
    match fs (step dir base) with
    | none => .error ⟨lit "open", name, .ENOENT⟩
    | some (.dir perm) =>
      if canRead perm then .error ⟨lit "read", name, .EISDIR⟩
      else .error ⟨lit "open", name, .EACCES⟩
    | some (.file perm data) =>
      if canRead perm then .ok data else .error ⟨lit "open", name, .EACCES⟩

end os

/-- The bytes `os.ReadFile` returns for `name`, `none` when it fails. -/
def readBack (fs : FS) (name : GoString) : Option (List UInt8) :=
  match os.ReadFile fs name with
  | .ok data => some data
  | .error _ => none

/-! ## `storage/writer.go` -/

/-- The struct `type Writer struct { FilePath string }`. -/
structure Writer where
  FilePath : GoString
  deriving DecidableEq, Repr

/-- The constructor `func NewWriter(filePath string) *Writer`:
`return &Writer{FilePath: filePath}`. -/
def NewWriter (filePath : GoString) : Writer := { FilePath := filePath }

/-- What a call of `Write` leaves behind: the writer object, the returned
error (`none` is `nil`) and the file system. -/
structure WriteResult where
  writer : Writer
  err : Option PathError
  fs : FS

/-- The method `func (w *Writer) Write(msg string) error`:
`return os.WriteFile(w.FilePath, []byte(msg), 0644)`. -/
def Writer.Write (w : Writer) (msg : GoString) (fs : FS) : WriteResult :=
  let r := os.WriteFile w.FilePath msg 0o644 fs
  { writer := w, err := r.1, fs := r.2 }

/-! ## `net/http`, `fmt`, `log` -/

/-- The type `url.Values` (`map[string][]string`) as an association list: the
parsed query string. -/
abbrev Values := List (GoString × List GoString)

/-- The method `func (v Values) Has(key string) bool`. -/
def Values.Has (v : Values) (key : GoString) : Bool :=
  (v.lookup key).isSome

/-- The method `func (v Values) Get(key string) string`: the first value of `key`, or the
empty string when there is none. -/
def Values.Get (v : Values) (key : GoString) : GoString :=
  match v.lookup key with
  | some (x :: _) => x
  | _ => []

/-- The parts of `*url.URL` the service looks at; `Query` is the result of
`URL.Query()`. -/
structure URL where
  Path : GoString
  Query : Values
  deriving DecidableEq, Repr

/-- The parts of `*http.Request` a handler can look at. -/
structure Request where
  Method : GoString
  URL : URL
  Header : List (GoString × List GoString)
  Body : List UInt8
  deriving DecidableEq, Repr

/-- A recording `http.ResponseWriter`: `Code` is 0 until the header has been
written. -/
structure ResponseWriter where
  Code : Nat
  Header : List (GoString × GoString)
  Body : List UInt8
  deriving DecidableEq, Repr

namespace ResponseWriter

/-- The response writer a handler is given. -/
def fresh : ResponseWriter := { Code := 0, Header := [], Body := [] }

/-- The call `Header().Del(key)`. -/
def Del (w : ResponseWriter) (key : GoString) : ResponseWriter :=
  { w with Header := w.Header.filter (fun kv => kv.1 != key) }

/-- The call `Header().Set(key, value)`. -/
def Set (w : ResponseWriter) (key value : GoString) : ResponseWriter :=
  { w with Header := w.Header.filter (fun kv => kv.1 != key) ++ [(key, value)] }

/-- The call `WriteHeader(code)`: the first call fixes the status. -/
def WriteHeader (w : ResponseWriter) (code : Nat) : ResponseWriter :=
  if w.Code = 0 then { w with Code := code } else w

/-- The call `Write(b)`: writes the header with status 200 if it has not been written,
then appends `b` to the body. -/
def Write (w : ResponseWriter) (b : List UInt8) : ResponseWriter :=
  let w1 := w.WriteHeader 200
  { w1 with Body := w1.Body ++ b }

/-- The status the client receives. -/
def Status (w : ResponseWriter) : Nat := if w.Code = 0 then 200 else w.Code

end ResponseWriter

namespace http

/-- The constant `http.StatusBadRequest`. -/
def StatusBadRequest : Nat := 400

/-- The constant `http.StatusInternalServerError`. -/
def StatusInternalServerError : Nat := 500

/-- The function `func Error(w ResponseWriter, error string, code int)`: plain-text headers,
the status, then `fmt.Fprintln(w, error)`. -/
def Error (w : ResponseWriter) (error : GoString) (code : Nat) : ResponseWriter :=
  let h1 := w.Del (lit "Content-Length")
  let h2 := h1.Set (lit "Content-Type") (lit "text/plain; charset=utf-8")
  let h3 := h2.Set (lit "X-Content-Type-Options") (lit "nosniff")
  let h4 := h3.WriteHeader code
  h4.Write (error ++ lit "\n")

end http

/-- The state a handler runs in: the file system and the lines logged so far. -/
structure World where
  fs : FS
  log : List GoString

/-- The call `log.Printf` with the message already formatted. -/
def World.logLine (σ : World) (line : GoString) : World :=
  { σ with log := σ.log ++ [line] }

/-! ## `main.go` -/

/-- The constant `const dataPath = "/data/output.txt"`. -/
def dataPath : GoString := lit "/data/output.txt"

/-- The handler `func writeHandler(w http.ResponseWriter, r *http.Request)`. -/
def writeHandler (w : ResponseWriter) (r : Request) (σ : World) : ResponseWriter × World :=
  let msg := r.URL.Query.Get (lit "msg")
  if msg = [] then
    (http.Error w (lit "Missing msg parameter") http.StatusBadRequest, σ)
  else
    let writer := NewWriter dataPath
    let res := writer.Write msg σ.fs
    let σ1 : World := { σ with fs := res.fs }
    match res.err with
    | some err =>
      -- log.Printf("Failed to write to file: %v", err)
      let σ2 := σ1.logLine (lit "Failed to write to file: " ++ err.Error)
      (http.Error w (lit "Failed to write to storage") http.StatusInternalServerError, σ2)
    | none =>
      -- log.Printf("Successfully wrote message: %s", msg)
      let σ2 := σ1.logLine (lit "Successfully wrote message: " ++ msg)
      -- fmt.Fprintf(w, "Written: %s\n", msg)
      (w.Write (lit "Written: " ++ msg ++ lit "\n"), σ2)

/-- The handler `func healthHandler(w http.ResponseWriter, r *http.Request)`:
`fmt.Fprintf(w, "OK\n")`. -/
def healthHandler (w : ResponseWriter) (_r : Request) (σ : World) : ResponseWriter × World :=
  (w.Write (lit "OK\n"), σ)

/-- A handler function. -/
abbrev Handler := ResponseWriter → Request → World → ResponseWriter × World

/-- The routes `main` registers on the default mux with `http.HandleFunc`:
`"/write"` and `"/health"`, both without a method. `none` is a path the
repository registers nothing for. -/
def routes (path : GoString) : Option Handler :=
  if path = lit "/write" then some writeHandler
  else if path = lit "/health" then some healthHandler
  else none

/-- What the server sends of the response the handler wrote: everything, but
for a `HEAD` request the body is discarded. -/
def sent (r : Request) (w : ResponseWriter) : ResponseWriter :=
  if r.Method = lit "HEAD" then { w with Body := [] } else w

/-- One request served through the route table: the handler runs on a fresh
response writer whatever the method, and the server sends what it wrote. -/
def serve (r : Request) (σ : World) : Option (ResponseWriter × World) :=
  match routes r.URL.Path with
  | some h => some (sent r (h ResponseWriter.fresh r σ).1, (h ResponseWriter.fresh r σ).2)
  | none => none

/-! ## Conditions on the file system used in the statements -/

/-- The parent directory of `name` can be reached: `name` is a well-formed
file name and resolution reaches its parent directory, every directory on the
way being present and searchable. -/
def parentExists (fs : FS) (name : GoString) : Bool :=
  match namei fs name with
  | .ok _ => true
  | .error _ => false

/-- The name `name` denotes a directory: its last component is empty, `.` or
`..`, or a directory is stored at its location. -/
def isDir (fs : FS) (name : GoString) : Bool :=
  isDots (basePart name) ||
    match fs (loc name) with
    | some (.dir _) => true
    | _ => false

/-- The process has write permission for `name`: on the node when there is
one, on the parent directory when the file has to be created. -/
def mayWrite (fs : FS) (name : GoString) : Bool :=
  match fs (loc name) with
  | some (.file perm _) => canWrite perm
  | some (.dir perm) => canWrite perm
  | none =>
    match fs (parentLoc name) with
    | some (.dir perm) => canWrite perm
    | _ => false

/-- The path `name` is writable: its parent directory exists, it is not a
directory, and the process has write permission. -/
def writable (fs : FS) (name : GoString) : Bool :=
  parentExists fs name && !isDir fs name && mayWrite fs name

/-- The process may read what is at `name` once written: an existing file has
the owner read bit (a file the writer creates gets mode `0644`). -/
def mayRead (fs : FS) (name : GoString) : Bool :=
  match fs (loc name) with
  | some (.file perm _) => canRead perm
  | _ => true

/-- The permission bits of the file at `name` after a successful
`os.WriteFile` with mode `perm`: an existing file keeps its bits. -/
def permAfter (fs : FS) (name : GoString) (perm : Nat) : Nat :=
  match fs (loc name) with
  | some (.file fperm _) => fperm
  | _ => perm

/-! ## Concrete states and requests -/

/-- A file system with the root and the directory `/tmp` (mode `01777`). -/
def fsTmp : FS := fun q =>
  if q = [] then some (.dir 0o755)
  else if q = [lit "tmp"] then some (.dir 0o1777)
  else none

/-- A file system with the root and the directory `/data`, the mounted volume
being empty. -/
def fsData : FS := fun q =>
  if q = [] then some (.dir 0o755)
  else if q = [lit "data"] then some (.dir 0o755)
  else none

/-- The volume with an earlier `/data/output.txt`. -/
def fsOld : FS :=
  fsData.set [lit "data", lit "output.txt"] (.file 0o644 (lit "an earlier, longer message"))

/-- The volume with an earlier `/data/output.txt` and a second file
`/data/other.txt`. -/
def fsTwo : FS :=
  fsOld.set [lit "data", lit "other.txt"] (.file 0o600 (lit "kept"))

/-- The directory `/tmp` with a write-only file `/tmp/wo.txt` (mode `0200`). -/
def fsWriteOnlyFile : FS :=
  fsTmp.set [lit "tmp", lit "wo.txt"] (.file 0o200 (lit "never readable"))

/-- A file system with nothing but the root: `/data` is not mounted. -/
def fsBare : FS := fun q => if q = [] then some (.dir 0o755) else none

/-- A file system whose `/data` is a directory the process may search but not
write to (mode `0555`). -/
def fsReadOnly : FS := fun q =>
  if q = [] then some (.dir 0o755)
  else if q = [lit "data"] then some (.dir 0o555)
  else none

/-- A request for `/write` with the given method and parsed query. -/
def writeRequest (method : GoString) (query : Values) : Request :=
  { Method := method, URL := { Path := lit "/write", Query := query }, Header := [], Body := [] }

/-- The path of the write-only file of `fsWriteOnlyFile`. -/
def woPath : GoString := lit "/tmp/wo.txt"

/-- The path of `TestWriter_WriteToNonExistentDir`. -/
def missingDirPath : GoString := lit "/tmp/nonexistent/writer-test.txt"

/-- The request `GET /write?msg=hello`. -/
def getHello : Request := writeRequest (lit "GET") [(lit "msg", [lit "hello"])]

/-- The request `GET /write?msg=`. -/
def getEmptyMsg : Request := writeRequest (lit "GET") [(lit "msg", [lit ""])]

/-- The request `GET /write`. -/
def getNoMsg : Request := writeRequest (lit "GET") []

/-- The state with an earlier `/data/output.txt` and an empty log. -/
def worldOld : World := { fs := fsOld, log := [] }

/-- The state without `/data`. -/
def worldBare : World := { fs := fsBare, log := [] }

/-- The state whose `/data` is not writable. -/
def worldReadOnly : World := { fs := fsReadOnly, log := [] }

/-! ## Lemmas on the file system model -/

theorem FS.set_same (fs : FS) (p : Path) (n : Node) : fs.set p n p = some n := by
  simp [FS.set]

theorem FS.set_other (fs : FS) (p q : Path) (n : Node) (h : q ≠ p) :
    fs.set p n q = fs q := by
  simp [FS.set, h]

theorem FS.set_set (fs : FS) (p : Path) (n m : Node) :
    (fs.set p n).set p m = fs.set p m := by
  funext q
  by_cases h : q = p <;> simp [FS.set, h]

theorem searchDir_none {fs : FS} {d : Path} (h : searchDir fs d = none) :
    ∃ perm, fs d = some (.dir perm) ∧ canSearch perm = true := by
  unfold searchDir at h
  split at h
  · cases h
  · cases h
  · next perm hd =>
    by_cases hc : canSearch perm = true
    · exact ⟨perm, hd, hc⟩
    · simp [hc] at h

theorem lookupIn_none {fs : FS} {d : Path} {c : GoString} (h : lookupIn fs d c = none) :
    searchDir fs d = none ∧ ¬ NAME_MAX < c.length := by
  unfold lookupIn at h
  split at h
  · cases h
  · next hs =>
    by_cases hc : NAME_MAX < c.length
    · simp [hc] at h
    · exact ⟨hs, hc⟩

theorem lookupIn_of {fs : FS} {d : Path} {c : GoString} (hs : searchDir fs d = none)
    (hc : ¬ NAME_MAX < c.length) : lookupIn fs d c = none := by
  simp [lookupIn, hs, hc]

/-- Two states that hold the same node at `d` answer a search of `d` alike. -/
theorem searchDir_congr {fs fs2 : FS} {d : Path} (h : fs2 d = fs d) :
    searchDir fs2 d = searchDir fs d := by
  simp [searchDir, h]

theorem walkDirs_ok {fs : FS} :
    ∀ (cs : List GoString) (cur d : Path), walkDirs fs cur cs = .ok d → d = cs.foldl step cur
  | [], cur, d, h => by
    simp only [walkDirs] at h
    cases h
    rfl
  | c :: cs, cur, d, h => by
    simp only [walkDirs] at h
    split at h
    · cases h
    · simpa using walkDirs_ok cs (step cur c) d h

/-- Two states that differ at most at `t`, where the first holds no directory,
resolve the same directories. -/
theorem walkDirs_agree {fs fs2 : FS} {t : Path} (hag : ∀ q, q ≠ t → fs2 q = fs q)
    (ht : ∀ perm, fs t ≠ some (.dir perm)) :
    ∀ (cs : List GoString) (cur d : Path),
      walkDirs fs cur cs = .ok d → walkDirs fs2 cur cs = .ok d
  | [], cur, d, h => by
    simpa only [walkDirs] using h
  | c :: cs, cur, d, h => by
    simp only [walkDirs] at h ⊢
    split at h
    · cases h
    · next hl =>
      obtain ⟨hs, hc⟩ := lookupIn_none hl
      obtain ⟨perm, hd, -⟩ := searchDir_none hs
      have hne : cur ≠ t := by
        intro e
        exact ht perm (e ▸ hd)
      have hl2 : lookupIn fs2 cur c = none :=
        lookupIn_of ((searchDir_congr (hag cur hne)).trans hs) hc
      simp only [hl2]
      exact walkDirs_agree hag ht cs (step cur c) d h

/-- Storing a file where no directory was does not disturb a successful walk. -/
theorem walkDirs_set {fs : FS} {t : Path} {n : Node}
    (ht : ∀ perm, fs t ≠ some (.dir perm)) (cs : List GoString) (cur d : Path)
    (h : walkDirs fs cur cs = .ok d) : walkDirs (fs.set t n) cur cs = .ok d :=
  walkDirs_agree (fun q hq => FS.set_other fs t q n hq) ht cs cur d h

theorem namei_ok {fs : FS} {name : GoString} {dir : Path} {base : GoString}
    (h : namei fs name = .ok (dir, base)) :
    checkName name = none ∧ dir = parentLoc name ∧ base = basePart name ∧
      walkDirs fs [] (dirPart name) = .ok dir ∧ searchDir fs dir = none ∧
      ¬ NAME_MAX < (basePart name).length := by
  unfold namei at h
  split at h
  · cases h
  · next hck =>
    split at h
    · cases h
    · next d hw =>
      split at h
      · cases h
      · next hl =>
        cases h
        obtain ⟨hs, hc⟩ := lookupIn_none hl
        exact ⟨hck, walkDirs_ok _ _ _ hw, rfl, hw, hs, hc⟩

/-- Resolution in terms of its parts. -/
theorem namei_of {fs : FS} {name : GoString} (hck : checkName name = none)
    (hw : walkDirs fs [] (dirPart name) = .ok (parentLoc name))
    (hs : searchDir fs (parentLoc name) = none)
    (hc : ¬ NAME_MAX < (basePart name).length) :
    namei fs name = .ok (parentLoc name, basePart name) := by
  unfold namei
  simp only [hck, hw, lookupIn_of hs hc]

theorem canWrite_0644 : canWrite 0o644 = true := by decide

/-- What `os.WriteFile` does on a writable path: no error, and the location of
the path holds a file with exactly the data. -/
theorem WriteFile_writable {fs : FS} {name : GoString} (data : List UInt8) (perm : Nat)
    (h : writable fs name = true) :
    os.WriteFile name data perm fs =
      (none, fs.set (loc name) (.file (permAfter fs name perm) data)) := by
  simp only [writable, Bool.and_eq_true, Bool.not_eq_true', parentExists, isDir,
    Bool.or_eq_false_iff] at h
  obtain ⟨⟨hp, hdots, hnd⟩, hm⟩ := h
  cases hn : namei fs name with
  | error e => simp [hn] at hp
  | ok db =>
    obtain ⟨dir, base⟩ := db
    obtain ⟨-, hdir, hbase, -, -, -⟩ := namei_ok hn
    subst hdir hbase
    have hloc : step (parentLoc name) (basePart name) = loc name := rfl
    unfold os.WriteFile os.OpenFile
    simp only [hn, hdots, hloc]
    unfold mayWrite at hm
    unfold permAfter
    cases hf : fs (loc name) with
    | none =>
      simp only [hf] at hm
      cases hpar : fs (parentLoc name) with
      | none => simp [hpar] at hm
      | some nd =>
        cases nd with
        | file fp d => simp [hpar] at hm
        | dir dperm =>
          simp only [hpar] at hm
          simp [hm, File.Write, FS.set_same, FS.set_set]
    | some nd =>
      cases nd with
      | dir dp => simp [hf] at hnd
      | file fperm d =>
        simp only [hf] at hm
        simp [hm, File.Write, FS.set_same, FS.set_set]

/-- On a path that is not writable `os.WriteFile` returns an error of the
`open` step and leaves the file system as it was. -/
theorem WriteFile_not_writable {fs : FS} {name : GoString} (data : List UInt8) (perm : Nat)
    (h : writable fs name = false) :
    ∃ e : Errno, os.WriteFile name data perm fs = (some ⟨lit "open", name, e⟩, fs) := by
  cases hn : namei fs name with
  | error e =>
    exact ⟨e, by simp [os.WriteFile, os.OpenFile, hn]⟩
  | ok db =>
    obtain ⟨dir, base⟩ := db
    obtain ⟨-, hdir, hbase, -, -, -⟩ := namei_ok hn
    subst hdir hbase
    have hloc : step (parentLoc name) (basePart name) = loc name := rfl
    unfold os.WriteFile os.OpenFile
    simp only [hn, hloc]
    simp only [writable, parentExists, isDir, mayWrite, hn] at h
    cases hdots : isDots (basePart name) with
    | true => exact ⟨.EISDIR, by simp⟩
    | false =>
      simp only [hdots] at h
      cases hf : fs (loc name) with
      | none =>
        simp only [hf] at h
        cases hpar : fs (parentLoc name) with
        | none => exact ⟨.ENOENT, by simp⟩
        | some nd =>
          cases nd with
          | file fp d => exact ⟨.ENOENT, by simp⟩
          | dir dperm =>
            simp only [hpar] at h
            have hc : canWrite dperm = false := by simpa using h
            exact ⟨.EACCES, by simp [hc]⟩
      | some nd =>
        cases nd with
        | dir dp => exact ⟨.EISDIR, by simp⟩
        | file fperm d =>
          simp only [hf] at h
          have hc : canWrite fperm = false := by simpa using h
          exact ⟨.EACCES, by simp [hc]⟩

/-- When the parent directory is missing, resolution fails. -/
theorem namei_missing_parent {fs : FS} {name : GoString} (h : fs (parentLoc name) = none) :
    ∃ e, namei fs name = .error e := by
  unfold namei
  cases hck : checkName name with
  | some e => exact ⟨e, rfl⟩
  | none =>
    cases hw : walkDirs fs [] (dirPart name) with
    | error e => exact ⟨e, rfl⟩
    | ok d =>
      have hd : d = parentLoc name := walkDirs_ok _ _ _ hw
      subst hd
      exact ⟨.ENOENT, by simp [lookupIn, searchDir, h]⟩

theorem writable_false_of_missing_parent {fs : FS} {name : GoString}
    (h : fs (parentLoc name) = none) : writable fs name = false := by
  obtain ⟨e, he⟩ := namei_missing_parent h
  simp [writable, parentExists, he]

/-- Two states that differ at most at `t`, where the first holds no directory:
a name that resolves in the first resolves alike in the second. -/
theorem namei_agree {fs fs2 : FS} {t : Path} (hag : ∀ q, q ≠ t → fs2 q = fs q)
    (ht : ∀ perm, fs t ≠ some (.dir perm)) {name : GoString} {x : Path × GoString}
    (h : namei fs name = .ok x) : namei fs2 name = .ok x := by
  obtain ⟨dir, base⟩ := x
  obtain ⟨hck, hdir, hbase, hw, hs, hc⟩ := namei_ok h
  subst hdir hbase
  obtain ⟨perm, hd, -⟩ := searchDir_none hs
  have hdt : parentLoc name ≠ t := by
    intro e
    exact ht perm (e ▸ hd)
  exact namei_of hck (walkDirs_agree hag ht _ _ _ hw)
    ((searchDir_congr (hag _ hdt)).trans hs) hc

/-- Resolution of `name` still succeeds after a file has been stored at its
location, provided no directory was there. -/
theorem namei_set {fs : FS} {name : GoString} (n : Node)
    (hp : parentExists fs name = true) (hnd : isDir fs name = false) :
    namei (fs.set (loc name) n) name = .ok (parentLoc name, basePart name) := by
  simp only [isDir, Bool.or_eq_false_iff] at hnd
  obtain ⟨-, hnd⟩ := hnd
  have hnot : ∀ perm, fs (loc name) ≠ some (.dir perm) := by
    intro perm e
    simp [e] at hnd
  cases hn : namei fs name with
  | error e => simp [parentExists, hn] at hp
  | ok db =>
    obtain ⟨dir, base⟩ := db
    obtain ⟨-, hdir, hbase, -, -, -⟩ := namei_ok hn
    subst hdir hbase
    exact namei_agree (fun q hq => FS.set_other fs (loc name) q n hq) hnot hn

/-- What `name` contains after a file with bytes `d` has been stored there. -/
theorem contents_set {fs : FS} {name : GoString} (perm : Nat) (d : List UInt8)
    (hp : parentExists fs name = true) (hnd : isDir fs name = false) :
    contents (fs.set (loc name) (.file perm d)) name = some d := by
  unfold contents
  simp only [namei_set (.file perm d) hp hnd]
  have hloc : step (parentLoc name) (basePart name) = loc name := rfl
  simp [hloc, FS.set_same]

theorem writable_parts {fs : FS} {name : GoString} (h : writable fs name = true) :
    parentExists fs name = true ∧ isDir fs name = false ∧ mayWrite fs name = true := by
  simpa [writable, and_assoc] using h

theorem writable_of_parts {fs : FS} {name : GoString} (hp : parentExists fs name = true)
    (hnd : isDir fs name = false) (hm : mayWrite fs name = true) : writable fs name = true := by
  simp [writable, hp, hnd, hm]

/-- The permission bits left by a write on a writable path allow writing. -/
theorem canWrite_permAfter {fs : FS} {name : GoString} {perm : Nat}
    (h : writable fs name = true) (hperm : canWrite perm = true) :
    canWrite (permAfter fs name perm) = true := by
  obtain ⟨-, hnd, hm⟩ := writable_parts h
  unfold permAfter
  unfold mayWrite at hm
  cases hf : fs (loc name) with
  | none => simpa using hperm
  | some nd =>
    cases nd with
    | dir dp => simpa using hperm
    | file fperm d => simpa [hf] using hm

/-- A writable path is still writable after a write to it. -/
theorem writable_set {fs : FS} {name : GoString} {perm : Nat} (d : List UInt8)
    (h : writable fs name = true) (hperm : canWrite perm = true) :
    writable (fs.set (loc name) (.file perm d)) name = true := by
  obtain ⟨hp, hnd, -⟩ := writable_parts h
  have hdots : isDots (basePart name) = false := by
    simp only [isDir, Bool.or_eq_false_iff] at hnd
    exact hnd.1
  apply writable_of_parts
  · simp [parentExists, namei_set (.file perm d) hp hnd]
  · simp [isDir, hdots, FS.set_same]
  · simp [mayWrite, FS.set_same, hperm]

theorem permAfter_set (fs : FS) (name : GoString) (perm fperm : Nat) (d : List UInt8) :
    permAfter (fs.set (loc name) (.file fperm d)) name perm = fperm := by
  simp [permAfter, FS.set_same]

/-- The storage writer on a writable path. -/
theorem Write_writable {fs : FS} {p : GoString} (s : GoString) (h : writable fs p = true) :
    ((NewWriter p).Write s fs).err = none ∧
      ((NewWriter p).Write s fs).fs = fs.set (loc p) (.file (permAfter fs p 0o644) s) := by
  simp [Writer.Write, NewWriter, WriteFile_writable s 0o644 h]

/-- The storage writer on a path that is not writable. -/
theorem Write_not_writable {fs : FS} {p : GoString} (s : GoString) (h : writable fs p = false) :
    (∃ e : Errno, ((NewWriter p).Write s fs).err = some ⟨lit "open", p, e⟩) ∧
      ((NewWriter p).Write s fs).fs = fs := by
  obtain ⟨e, he⟩ := WriteFile_not_writable s 0o644 h
  exact ⟨⟨e, by simp [Writer.Write, NewWriter, he]⟩, by simp [Writer.Write, NewWriter, he]⟩

/-- The writer fails exactly on the paths that are not writable. -/
theorem Write_err_iff (fs : FS) (p s : GoString) :
    ((NewWriter p).Write s fs).err ≠ none ↔ writable fs p = false := by
  cases h : writable fs p with
  | true => simp [(Write_writable s h).1]
  | false =>
    obtain ⟨⟨e, he⟩, -⟩ := Write_not_writable s h
    simp [he]

/-- Two states that differ at most at `t`, neither holding a directory there,
hold the same bytes under every name that denotes another location. -/
theorem contents_agree {fs fs2 : FS} {t : Path} (hag : ∀ q, q ≠ t → fs2 q = fs q)
    (ht : ∀ perm, fs t ≠ some (.dir perm)) (ht2 : ∀ perm, fs2 t ≠ some (.dir perm))
    (name : GoString) (hname : loc name ≠ t) : contents fs2 name = contents fs name := by
  have hag2 : ∀ q, q ≠ t → fs q = fs2 q := fun q hq => (hag q hq).symm
  unfold contents
  cases hn : namei fs name with
  | ok x =>
    obtain ⟨dir, base⟩ := x
    obtain ⟨-, hdir, hbase, -, -, -⟩ := namei_ok hn
    have hl : step dir base = loc name := by rw [hdir, hbase]; rfl
    simp only [namei_agree hag ht hn, hl, hag (loc name) hname]
  | error e =>
    cases hn2 : namei fs2 name with
    | ok x =>
      have := namei_agree hag2 ht2 hn2
      rw [hn] at this
      cases this
    | error e2 => rfl

theorem canRead_0644 : canRead 0o644 = true := by decide

/-- Reading back after a readable file with bytes `d` has been stored at
`name`. -/
theorem ReadFile_set {fs : FS} {name : GoString} {perm : Nat} (d : List UInt8)
    (hp : parentExists fs name = true) (hnd : isDir fs name = false)
    (hr : canRead perm = true) :
    os.ReadFile (fs.set (loc name) (.file perm d)) name = .ok d := by
  unfold os.ReadFile
  simp only [namei_set (.file perm d) hp hnd]
  have hloc : step (parentLoc name) (basePart name) = loc name := rfl
  simp [hloc, FS.set_same, hr]

/-- The permission bits left by a write allow reading when an earlier file at
the path did. -/
theorem canRead_permAfter {fs : FS} {name : GoString} {perm : Nat}
    (h : mayRead fs name = true) (hperm : canRead perm = true) :
    canRead (permAfter fs name perm) = true := by
  unfold permAfter
  unfold mayRead at h
  cases hf : fs (loc name) with
  | none => simpa using hperm
  | some nd =>
    cases nd with
    | dir dp => simpa using hperm
    | file fperm d => simpa [hf] using h

/-! ## The storage writer -/

/-- C2, amended: overwrite, not append. For every writable path `p` and all
strings `s1`, `s2`, after `Write(s1)` followed by `Write(s2)` on a writer for
`p` both calls have succeeded, the file at `p` contains exactly `s2`, and the
file system equals the one after `Write(s2)` alone; reading `p` with
`os.ReadFile` yields exactly `s2` when the process may read the file, that is
when a file that was at `p` before has the owner read bit. -/
theorem C2_overwrite_not_append (fs : FS) (p s1 s2 : GoString)
    (hw : writable fs p = true) :
    ((NewWriter p).Write s1 fs).err = none ∧
      (((NewWriter p).Write s1 fs).writer.Write s2 ((NewWriter p).Write s1 fs).fs).err = none ∧
      contents (((NewWriter p).Write s1 fs).writer.Write s2 ((NewWriter p).Write s1 fs).fs).fs p
        = some s2 ∧
      (((NewWriter p).Write s1 fs).writer.Write s2 ((NewWriter p).Write s1 fs).fs).fs
        = ((NewWriter p).Write s2 fs).fs ∧
      (mayRead fs p = true →
        os.ReadFile
          (((NewWriter p).Write s1 fs).writer.Write s2 ((NewWriter p).Write s1 fs).fs).fs p
          = .ok s2) := by
  obtain ⟨hpar, hnd, -⟩ := writable_parts hw
  obtain ⟨he1, hfs1⟩ := Write_writable s1 hw
  have hw1 : writable (fs.set (loc p) (.file (permAfter fs p 0o644) s1)) p = true :=
    writable_set s1 hw (canWrite_permAfter hw canWrite_0644)
  obtain ⟨he2, hfs2⟩ := Write_writable s2 hw1
  obtain ⟨-, hfs⟩ := Write_writable s2 hw
  have hwr : ((NewWriter p).Write s1 fs).writer = NewWriter p := rfl
  rw [hwr, hfs1, hfs2, hfs, permAfter_set, FS.set_set]
  exact ⟨he1, he2, contents_set _ s2 hpar hnd, rfl,
    fun hr => ReadFile_set s2 hpar hnd (canRead_permAfter hr canRead_0644)⟩

/-- C2 on `/data/output.txt` holding an earlier, longer file: a longer first
and a shorter second message. -/
theorem C2_overwrite_not_append_witness :
    (writable fsOld dataPath = true ∧ mayRead fsOld dataPath = true) ∧
      contents (((NewWriter dataPath).Write (lit "first message") fsOld).writer.Write (lit "2nd")
        ((NewWriter dataPath).Write (lit "first message") fsOld).fs).fs dataPath
        = some (lit "2nd") ∧
      os.ReadFile (((NewWriter dataPath).Write (lit "first message") fsOld).writer.Write (lit "2nd")
        ((NewWriter dataPath).Write (lit "first message") fsOld).fs).fs dataPath
        = .ok (lit "2nd") :=
  ⟨by decide,
    (C2_overwrite_not_append fsOld dataPath (lit "first message") (lit "2nd") (by decide)).2.2.1,
    (C2_overwrite_not_append fsOld dataPath (lit "first message") (lit "2nd") (by decide)).2.2.2.2
      (by decide)⟩

/-- C2 as stated fails on a write-only file: `/tmp/wo.txt` (mode `0200`) is
writable and both writes succeed, yet reading the path does not yield the
second string: `os.ReadFile` is refused (`EACCES`). -/
theorem C2_counterexample_write_only_file :
    writable fsWriteOnlyFile woPath = true ∧
      ((NewWriter woPath).Write (lit "first message") fsWriteOnlyFile).err = none ∧
      (((NewWriter woPath).Write (lit "first message") fsWriteOnlyFile).writer.Write (lit "2nd")
        ((NewWriter woPath).Write (lit "first message") fsWriteOnlyFile).fs).err = none ∧
      readBack (((NewWriter woPath).Write (lit "first message") fsWriteOnlyFile).writer.Write
        (lit "2nd") ((NewWriter woPath).Write (lit "first message") fsWriteOnlyFile).fs).fs woPath
        = none := by
  decide

/-- C3: for every path `p` whose parent directory does not exist and every
string `s`, `NewWriter(p).Write(s)` returns a non-nil error, and afterwards the
file system is unchanged: no file can be read at `p` and the parent directory
has not been created. -/
theorem C3_missing_parent_fails (fs : FS) (p s : GoString)
    (hpar : fs (parentLoc p) = none) :
    ((NewWriter p).Write s fs).err ≠ none ∧
      ((NewWriter p).Write s fs).fs = fs ∧
      contents ((NewWriter p).Write s fs).fs p = none ∧
      ((NewWriter p).Write s fs).fs (parentLoc p) = none := by
  have hnw := writable_false_of_missing_parent hpar
  obtain ⟨⟨e, he⟩, hfs⟩ := Write_not_writable s hnw
  obtain ⟨e2, hn⟩ := namei_missing_parent hpar
  rw [hfs]
  exact ⟨by simp [he], rfl, by simp [contents, hn], hpar⟩

/-- C3 on the input of `TestWriter_WriteToNonExistentDir`:
`/tmp/nonexistent/writer-test.txt` and `"test message"`. -/
theorem C3_missing_parent_fails_witness :
    fsTmp (parentLoc missingDirPath) = none ∧
      ((NewWriter missingDirPath).Write (lit "test message") fsTmp).err ≠ none ∧
      ((NewWriter missingDirPath).Write (lit "test message") fsTmp).fs = fsTmp ∧
      contents ((NewWriter missingDirPath).Write (lit "test message") fsTmp).fs missingDirPath
        = none ∧
      ((NewWriter missingDirPath).Write (lit "test message") fsTmp).fs (parentLoc missingDirPath)
        = none :=
  ⟨by decide, C3_missing_parent_fails fsTmp missingDirPath (lit "test message") (by decide)⟩

/-- C9: frame of the storage writer. For every file system, writer and string,
`Write` changes nothing but the file at the writer's path, whether the write
succeeds or fails: every other location keeps its node (existence, kind,
permission bits and bytes), every name that denotes another location holds
the same bytes as before, and the writer's `FilePath` after the call is the one
before it. -/
theorem C9_write_frame (fs : FS) (w : Writer) (s : GoString) :
    (∀ q : Path, q ≠ loc w.FilePath → (w.Write s fs).fs q = fs q) ∧
      (∀ name : GoString, loc name ≠ loc w.FilePath →
        contents (w.Write s fs).fs name = contents fs name) ∧
      (w.Write s fs).writer.FilePath = w.FilePath := by
  cases h : writable fs w.FilePath with
  | false =>
    have hfs : (w.Write s fs).fs = fs := (@Write_not_writable fs w.FilePath s h).2
    rw [hfs]
    exact ⟨fun _ _ => rfl, fun _ _ => rfl, rfl⟩
  | true =>
    have hfs : (w.Write s fs).fs
        = fs.set (loc w.FilePath) (.file (permAfter fs w.FilePath 0o644) s) :=
      (@Write_writable fs w.FilePath s h).2
    have hframe : ∀ q : Path, q ≠ loc w.FilePath → (w.Write s fs).fs q = fs q := by
      intro q hq
      rw [hfs]
      exact FS.set_other _ _ _ _ hq
    refine ⟨hframe, ?_, rfl⟩
    intro name hname
    obtain ⟨-, hnd, -⟩ := writable_parts h
    simp only [isDir, Bool.or_eq_false_iff] at hnd
    have ht : ∀ perm, fs (loc w.FilePath) ≠ some (.dir perm) := by
      intro perm e
      simp [e] at hnd
    have ht2 : ∀ perm, (w.Write s fs).fs (loc w.FilePath) ≠ some (.dir perm) := by
      intro perm
      rw [hfs, FS.set_same]
      simp
    exact contents_agree hframe ht ht2 name hname

/-- C9 on a successful write to `/data/output.txt` next to another file: the
directory `/data` and the other file are untouched. -/
theorem C9_write_frame_witness :
    ([lit "data"] ≠ loc (NewWriter dataPath).FilePath ∧
        loc (lit "/data/other.txt") ≠ loc (NewWriter dataPath).FilePath) ∧
      ((NewWriter dataPath).Write (lit "hello") fsTwo).fs [lit "data"] = fsTwo [lit "data"] ∧
      contents ((NewWriter dataPath).Write (lit "hello") fsTwo).fs (lit "/data/other.txt")
        = some (lit "kept") ∧
      ((NewWriter dataPath).Write (lit "hello") fsTwo).writer.FilePath = dataPath :=
  ⟨by decide,
    (C9_write_frame fsTwo (NewWriter dataPath) (lit "hello")).1 [lit "data"] (by decide),
    ((C9_write_frame fsTwo (NewWriter dataPath) (lit "hello")).2.1 (lit "/data/other.txt")
      (by decide)).trans (by decide),
    (C9_write_frame fsTwo (NewWriter dataPath) (lit "hello")).2.2⟩

/-! ## The HTTP handlers -/

/-- A query without the key yields the empty string. -/
theorem Values.Get_of_not_Has {v : Values} {key : GoString} (h : v.Has key = false) :
    v.Get key = [] := by
  unfold Values.Has at h
  unfold Values.Get
  cases hl : v.lookup key with
  | none => rfl
  | some vs => simp [hl] at h

/-- The response of `writeHandler` when `msg` is empty or missing. -/
theorem writeHandler_empty {r : Request} (w : ResponseWriter) (σ : World)
    (h : r.URL.Query.Get (lit "msg") = []) :
    writeHandler w r σ =
      (http.Error w (lit "Missing msg parameter") http.StatusBadRequest, σ) := by
  simp [writeHandler, h]

/-- The response of `writeHandler` when the writer succeeds. -/
theorem writeHandler_ok {r : Request} (w : ResponseWriter) (σ : World)
    (hne : r.URL.Query.Get (lit "msg") ≠ []) (hw : writable σ.fs dataPath = true) :
    (writeHandler w r σ).1 = w.Write (lit "Written: " ++ r.URL.Query.Get (lit "msg") ++ lit "\n") ∧
      (writeHandler w r σ).2.fs =
        σ.fs.set (loc dataPath) (.file (permAfter σ.fs dataPath 0o644) (r.URL.Query.Get (lit "msg"))) := by
  obtain ⟨he, hfs⟩ := Write_writable (r.URL.Query.Get (lit "msg")) hw
  simp [writeHandler, hne, he, hfs, World.logLine]

/-- The response of `writeHandler` when the writer fails. -/
theorem writeHandler_fail {r : Request} (w : ResponseWriter) (σ : World)
    (hne : r.URL.Query.Get (lit "msg") ≠ [])
    (he : ((NewWriter dataPath).Write (r.URL.Query.Get (lit "msg")) σ.fs).err ≠ none) :
    (writeHandler w r σ).1 =
      http.Error w (lit "Failed to write to storage") http.StatusInternalServerError := by
  cases h : ((NewWriter dataPath).Write (r.URL.Query.Get (lit "msg")) σ.fs).err with
  | none => exact absurd h he
  | some e => simp [writeHandler, hne, h]

theorem Error_fresh_Status (e : GoString) (code : Nat) (hc : code ≠ 0) :
    (http.Error .fresh e code).Status = code := by
  simp [http.Error, ResponseWriter.fresh, ResponseWriter.Del, ResponseWriter.Set,
    ResponseWriter.WriteHeader, ResponseWriter.Write, ResponseWriter.Status, hc]

theorem Error_fresh_Body (e : GoString) (code : Nat) :
    (http.Error .fresh e code).Body = e ++ lit "\n" := by
  by_cases hc : code = 0 <;>
    simp [http.Error, ResponseWriter.fresh, ResponseWriter.Del, ResponseWriter.Set,
      ResponseWriter.WriteHeader, ResponseWriter.Write, hc]

theorem Write_fresh (b : List UInt8) :
    (ResponseWriter.fresh.Write b).Status = 200 ∧ (ResponseWriter.fresh.Write b).Body = b := by
  simp [ResponseWriter.fresh, ResponseWriter.WriteHeader, ResponseWriter.Write,
    ResponseWriter.Status]

/-- A request with a non-empty `msg` against a writable target: status 200 and
the target holds `msg`. -/
theorem writeHandler_ok_effect (σ : World) (r : Request)
    (hne : r.URL.Query.Get (lit "msg") ≠ []) (hw : writable σ.fs dataPath = true) :
    (writeHandler .fresh r σ).1.Status = 200 ∧
      contents (writeHandler .fresh r σ).2.fs dataPath = some (r.URL.Query.Get (lit "msg")) := by
  obtain ⟨hpar, hnd, -⟩ := writable_parts hw
  obtain ⟨hresp, hfs⟩ := writeHandler_ok .fresh σ hne hw
  rw [hresp, hfs]
  exact ⟨(Write_fresh _).1, contents_set _ _ hpar hnd⟩

/-- C4: for every request to `/write` whose `msg` query parameter is a
non-empty string `m`, when the target `/data/output.txt` is writable,
`writeHandler` responds with status 200 and body `"Written: " ++ m ++ "\n"`,
and afterwards the target file contains exactly `m`. -/
theorem C4_write_success (σ : World) (r : Request) (m : GoString)
    (hm : r.URL.Query.Get (lit "msg") = m) (hne : m ≠ [])
    (hw : writable σ.fs dataPath = true) :
    (writeHandler .fresh r σ).1.Status = 200 ∧
      (writeHandler .fresh r σ).1.Body = lit "Written: " ++ m ++ lit "\n" ∧
      contents (writeHandler .fresh r σ).2.fs dataPath = some m := by
  subst hm
  obtain ⟨hpar, hnd, -⟩ := writable_parts hw
  obtain ⟨hresp, hfs⟩ := writeHandler_ok .fresh σ hne hw
  rw [hresp, hfs]
  exact ⟨(Write_fresh _).1, (Write_fresh _).2, contents_set _ _ hpar hnd⟩

/-- C4 on the case of the specification: `GET /write?msg=hello` against a
volume that holds an earlier, longer file gives body `Written: hello\n` and
file content `hello`. -/
theorem C4_write_success_witness :
    (getHello.URL.Query.Get (lit "msg") = lit "hello" ∧ lit "hello" ≠ [] ∧
        writable worldOld.fs dataPath = true) ∧
      (writeHandler .fresh getHello worldOld).1.Status = 200 ∧
      (writeHandler .fresh getHello worldOld).1.Body = lit "Written: hello\n" ∧
      contents (writeHandler .fresh getHello worldOld).2.fs dataPath = some (lit "hello") :=
  ⟨by decide,
    C4_write_success worldOld getHello (lit "hello") (by decide) (by decide) (by decide)⟩

/-- C5: for every request to `/write` that carries no `msg` query parameter and
every state, `writeHandler` responds with status 400 and does not touch the
storage: the file system (and the log) after the request are those before it,
and the response is the same whatever the file system holds. -/
theorem C5_missing_msg (σ : World) (r : Request)
    (h : r.URL.Query.Has (lit "msg") = false) :
    (writeHandler .fresh r σ).1.Status = 400 ∧
      (writeHandler .fresh r σ).2.fs = σ.fs ∧
      (writeHandler .fresh r σ).2.log = σ.log ∧
      ∀ τ : World, (writeHandler .fresh r τ).1 = (writeHandler .fresh r σ).1 := by
  have hg := Values.Get_of_not_Has h
  refine ⟨?_, ?_, ?_, ?_⟩
  · rw [writeHandler_empty .fresh σ hg]
    exact Error_fresh_Status _ _ (by decide)
  · rw [writeHandler_empty .fresh σ hg]
  · rw [writeHandler_empty .fresh σ hg]
  · intro τ
    rw [writeHandler_empty .fresh σ hg, writeHandler_empty .fresh τ hg]

/-- C5 on `GET /write` with an empty query, the target holding an earlier
file. -/
theorem C5_missing_msg_witness :
    getNoMsg.URL.Query.Has (lit "msg") = false ∧
      (writeHandler .fresh getNoMsg worldOld).1.Status = 400 ∧
      (writeHandler .fresh getNoMsg worldOld).2.fs = fsOld :=
  ⟨by decide, (C5_missing_msg worldOld getNoMsg (by decide)).1,
    (C5_missing_msg worldOld getNoMsg (by decide)).2.1⟩

/-- C6: a request to `/write` with `msg` present but empty is treated exactly
like one with `msg` missing: for every state the two requests produce the same
response (status 400, same body) and the same, unchanged, state; in particular
an existing target file keeps its content. -/
theorem C6_empty_msg_like_missing (σ : World) (r1 r2 : Request)
    (h1 : r1.URL.Query.Has (lit "msg") = true)
    (h1e : r1.URL.Query.Get (lit "msg") = [])
    (h2 : r2.URL.Query.Has (lit "msg") = false) :
    writeHandler .fresh r1 σ = writeHandler .fresh r2 σ ∧
      (writeHandler .fresh r1 σ).1.Status = 400 ∧
      (writeHandler .fresh r1 σ).1.Body = lit "Missing msg parameter\n" ∧
      (writeHandler .fresh r1 σ).2.fs = σ.fs ∧
      contents (writeHandler .fresh r1 σ).2.fs dataPath = contents σ.fs dataPath := by
  have _ := h1
  have h2e := Values.Get_of_not_Has h2
  rw [writeHandler_empty .fresh σ h1e, writeHandler_empty .fresh σ h2e]
  exact ⟨rfl, Error_fresh_Status _ _ (by decide), Error_fresh_Body _ _, rfl, rfl⟩

/-- C6 on `/write?msg=` against `/write`, the target holding an earlier file. -/
theorem C6_empty_msg_like_missing_witness :
    (getEmptyMsg.URL.Query.Has (lit "msg") = true ∧ getEmptyMsg.URL.Query.Get (lit "msg") = [] ∧
        getNoMsg.URL.Query.Has (lit "msg") = false) ∧
      writeHandler .fresh getEmptyMsg worldOld = writeHandler .fresh getNoMsg worldOld ∧
      contents (writeHandler .fresh getEmptyMsg worldOld).2.fs dataPath
        = some (lit "an earlier, longer message") :=
  ⟨by decide,
    (C6_empty_msg_like_missing worldOld getEmptyMsg getNoMsg (by decide) (by decide)
      (by decide)).1,
    ((C6_empty_msg_like_missing worldOld getEmptyMsg getNoMsg (by decide) (by decide)
      (by decide)).2.2.2.2).trans (by decide)⟩

/-- C7: for every request to `/write` with a non-empty `msg`, if the storage
writer returns an error then `writeHandler` responds with status 500 and a
response that does not depend on the error: any two failing runs (whatever the
states, the errors and the `msg` values) give equal responses, the body is the
fixed text `Failed to write to storage\n`, which contains neither the text of
the error nor the target path, and it is not the success body. -/
theorem C7_failure_hides_error (σ1 σ2 : World) (r1 r2 : Request)
    (hne1 : r1.URL.Query.Get (lit "msg") ≠ [])
    (hne2 : r2.URL.Query.Get (lit "msg") ≠ [])
    (he1 : ((NewWriter dataPath).Write (r1.URL.Query.Get (lit "msg")) σ1.fs).err ≠ none)
    (he2 : ((NewWriter dataPath).Write (r2.URL.Query.Get (lit "msg")) σ2.fs).err ≠ none) :
    (writeHandler .fresh r1 σ1).1.Status = 500 ∧
      (writeHandler .fresh r1 σ1).1 = (writeHandler .fresh r2 σ2).1 ∧
      (writeHandler .fresh r1 σ1).1.Body = lit "Failed to write to storage\n" ∧
      (∀ e : PathError, ¬ e.Error <:+: (writeHandler .fresh r1 σ1).1.Body) ∧
      ¬ dataPath <:+: (writeHandler .fresh r1 σ1).1.Body ∧
      (writeHandler .fresh r1 σ1).1.Body
        ≠ lit "Written: " ++ r1.URL.Query.Get (lit "msg") ++ lit "\n" := by
  have hr1 := writeHandler_fail .fresh σ1 hne1 he1
  have hr2 := writeHandler_fail .fresh σ2 hne2 he2
  have hb : (writeHandler .fresh r1 σ1).1.Body = lit "Failed to write to storage\n" := by
    rw [hr1, Error_fresh_Body]
    decide
  refine ⟨?_, ?_, hb, ?_, ?_, ?_⟩
  · rw [hr1]
    exact Error_fresh_Status _ _ (by decide)
  · rw [hr1, hr2]
  · intro e hin
    rw [hb] at hin
    have hcolon : (58 : UInt8) ∈ e.Error := by
      have h58 : (58 : UInt8) ∈ lit ": " := by decide
      simp [PathError.Error, h58]
    exact absurd (hin.subset hcolon) (by decide)
  · intro hin
    rw [hb] at hin
    have hslash : (47 : UInt8) ∈ dataPath := by decide
    exact absurd (hin.subset hslash) (by decide)
  · rw [hb]
    intro h
    have hh := congrArg List.head? h
    have hl : (lit "Failed to write to storage\n").head? = some 70 := by decide
    have hr : (lit "Written: " ++ r1.URL.Query.Get (lit "msg") ++ lit "\n").head? = some 87 := rfl
    rw [hl, hr] at hh
    exact absurd hh (by decide)

/-- C7 on two failing runs with different errors, methods and messages:
`/data` missing (`ENOENT`) with `msg=first`, and `/data` not writable
(`EACCES`) with `msg=second`. -/
theorem C7_failure_hides_error_witness :
    (((NewWriter dataPath).Write (lit "first") worldBare.fs).err
          = some { Op := lit "open", Path := dataPath, Err := .ENOENT } ∧
        ((NewWriter dataPath).Write (lit "second") worldReadOnly.fs).err
          = some { Op := lit "open", Path := dataPath, Err := .EACCES }) ∧
      (writeHandler .fresh (writeRequest (lit "GET") [(lit "msg", [lit "first"])])
        worldBare).1.Status = 500 ∧
      (writeHandler .fresh (writeRequest (lit "GET") [(lit "msg", [lit "first"])]) worldBare).1
        = (writeHandler .fresh (writeRequest (lit "POST") [(lit "msg", [lit "second"])])
            worldReadOnly).1 :=
  ⟨by decide,
    (C7_failure_hides_error worldBare worldReadOnly
      (writeRequest (lit "GET") [(lit "msg", [lit "first"])])
      (writeRequest (lit "POST") [(lit "msg", [lit "second"])])
      (by decide) (by decide) (by decide) (by decide)).1,
    (C7_failure_hides_error worldBare worldReadOnly
      (writeRequest (lit "GET") [(lit "msg", [lit "first"])])
      (writeRequest (lit "POST") [(lit "msg", [lit "second"])])
      (by decide) (by decide) (by decide) (by decide)).2.1⟩

/-- C8: for every request and every state, `healthHandler` responds with status
200 and body `OK\n` and leaves the state (file system and log) unchanged. -/
theorem C8_health_always_ok (r : Request) (σ : World) :
    (healthHandler .fresh r σ).1.Status = 200 ∧
      (healthHandler .fresh r σ).1.Body = lit "OK\n" ∧
      (healthHandler .fresh r σ).2.fs = σ.fs ∧
      (healthHandler .fresh r σ).2 = σ :=
  ⟨(Write_fresh _).1, (Write_fresh _).2, rfl, rfl⟩

/-- A registered handler answers alike whatever the method of the request. -/
theorem routes_method {path : GoString} {h : Handler} (hr : routes path = some h)
    (w : ResponseWriter) (r : Request) (m : GoString) (σ : World) :
    h w { r with Method := m } σ = h w r σ := by
  unfold routes at hr
  split at hr
  · cases hr
    rfl
  · split at hr
    · cases hr
      rfl
    · cases hr

/-- The server sends the status the handler wrote. -/
theorem sent_Status (r : Request) (w : ResponseWriter) : (sent r w).Status = w.Status := by
  unfold sent
  split <;> rfl

/-- The server sends the whole response unless the method is `HEAD`. -/
theorem sent_of_not_HEAD {r : Request} (w : ResponseWriter) (h : r.Method ≠ lit "HEAD") :
    sent r w = w := by
  simp [sent, h]

/-- C10: `writeHandler` never looks at the HTTP method, and `main` registers
it without one. For every request, every method `m` and every state, the
handler answers the request with its method replaced by `m` exactly as the
original (same response, same resulting state); through the route table the
status sent and the resulting state are the same for every method, and the
whole response is the same when neither method is `HEAD` (whose body the
server does not send); so a request with any method and a non-empty `msg`
overwrites a writable target and is answered 200. -/
theorem C10_method_not_inspected (r : Request) (m : GoString) (σ : World) :
    writeHandler .fresh { r with Method := m } σ = writeHandler .fresh r σ ∧
      (serve { r with Method := m } σ).map (fun x => (x.1.Status, x.2))
        = (serve r σ).map (fun x => (x.1.Status, x.2)) ∧
      (m ≠ lit "HEAD" → r.Method ≠ lit "HEAD" → serve { r with Method := m } σ = serve r σ) ∧
      (r.URL.Path = lit "/write" → r.URL.Query.Get (lit "msg") ≠ [] →
        writable σ.fs dataPath = true →
        ∃ resp τ, serve { r with Method := m } σ = some (resp, τ) ∧ resp.Status = 200 ∧
          contents τ.fs dataPath = some (r.URL.Query.Get (lit "msg"))) := by
  refine ⟨rfl, ?_, ?_, ?_⟩
  · unfold serve
    cases hr : routes r.URL.Path with
    | none => simp [hr]
    | some h =>
      have hm := routes_method hr .fresh r m σ
      simp only [hr, Option.map_some', hm, sent_Status]
  · intro hm1 hm2
    unfold serve
    cases hr : routes r.URL.Path with
    | none => simp [hr]
    | some h =>
      have hm := routes_method hr .fresh r m σ
      have h1 : ({ r with Method := m } : Request).Method ≠ lit "HEAD" := hm1
      simp only [hr, hm, sent_of_not_HEAD _ h1, sent_of_not_HEAD _ hm2]
  · intro hp hne hw
    have hroute : routes ({ r with Method := m } : Request).URL.Path = some writeHandler := by
      show routes r.URL.Path = some writeHandler
      rw [hp]
      rfl
    have hm : writeHandler .fresh { r with Method := m } σ = writeHandler .fresh r σ := rfl
    have hc := writeHandler_ok_effect σ r hne hw
    refine ⟨sent { r with Method := m } (writeHandler .fresh r σ).1,
      (writeHandler .fresh r σ).2, ?_, ?_, hc.2⟩
    · unfold serve
      simp only [hroute, hm]
    · rw [sent_Status]
      exact hc.1

/-- C10 on `POST`, `DELETE` and `HEAD` requests with `msg=hello`: the handler
answers the `POST` like the `GET`, and the `DELETE` and the `HEAD` request are
answered 200 and overwrite the earlier file. -/
theorem C10_method_not_inspected_witness :
    (getHello.URL.Path = lit "/write" ∧ getHello.URL.Query.Get (lit "msg") ≠ [] ∧
        writable worldOld.fs dataPath = true ∧ lit "POST" ≠ lit "HEAD" ∧
        getHello.Method ≠ lit "HEAD") ∧
      writeHandler .fresh { getHello with Method := lit "POST" } worldOld
        = writeHandler .fresh getHello worldOld ∧
      serve { getHello with Method := lit "POST" } worldOld = serve getHello worldOld ∧
      (∃ resp τ, serve { getHello with Method := lit "DELETE" } worldOld = some (resp, τ) ∧
        resp.Status = 200 ∧ contents τ.fs dataPath = some (lit "hello")) ∧
      ∃ resp τ, serve { getHello with Method := lit "HEAD" } worldOld = some (resp, τ) ∧
        resp.Status = 200 ∧ contents τ.fs dataPath = some (lit "hello") :=
  ⟨by decide,
    (C10_method_not_inspected getHello (lit "POST") worldOld).1,
    (C10_method_not_inspected getHello (lit "POST") worldOld).2.2.1 (by decide) (by decide),
    (C10_method_not_inspected getHello (lit "DELETE") worldOld).2.2.2
      (by decide) (by decide) (by decide),
    (C10_method_not_inspected getHello (lit "HEAD") worldOld).2.2.2
      (by decide) (by decide) (by decide)⟩

end K8sStorage
